import Mathlib

/-!
Verification of the TCP string-search server (`server/search_algorithms.py`,
`server/server.py`, `server/utils.py`) against its natural-language
specification.  Python strings are modelled as Lean `String` (lists of
characters); Python's string comparison is code-point lexicographic order,
modelled here as the lexicographic order on `String.data : List Char`.
Python `sorted` is modelled by `List.insertionSort`: both produce the
`≤`-sorted permutation of the input (over a linear order the sorted
permutation is unique, so the choice of sorting algorithm is immaterial).
-/

namespace TCPSearch

/-- Python string comparison `a < b`: code-point lexicographic order. -/
def pyLt (a b : String) : Prop :=
  a.data < b.data

/-- Python string comparison `a <= b`: code-point lexicographic order. -/
def pyLe (a b : String) : Prop :=
  a.data ≤ b.data

instance : DecidableRel pyLt := fun a b => inferInstanceAs (Decidable (a.data < b.data))

instance : DecidableRel pyLe := fun a b => inferInstanceAs (Decidable (a.data ≤ b.data))

instance : IsTotal String pyLe := ⟨fun a b => le_total a.data b.data⟩

instance : IsTrans String pyLe := ⟨fun _ _ _ h h' => le_trans h h'⟩

instance : IsRefl String pyLe := ⟨fun a => le_refl a.data⟩

/-- Python whitespace characters recognised by `str.strip()` (ASCII range:
space, tab, newline, carriage return, vertical tab, form feed). -/
def pyWhitespace (c : Char) : Bool :=
  c == ' ' || c == '\t' || c == '\n' || c == '\r' ||
  c == Char.ofNat 11 || c == Char.ofNat 12

/-- Python `str.strip()` on a list of characters: drop whitespace from both
ends. -/
def pyStripL (l : List Char) : List Char :=
  ((l.dropWhile pyWhitespace).reverse.dropWhile pyWhitespace).reverse

/-- Python `str.strip()` on a string. -/
def pyStrip (s : String) : String :=
  ⟨pyStripL s.data⟩

/-- Python `sorted` on a list of strings. -/
def pySorted (l : List String) : List String :=
  l.insertionSort pyLe

/-! ## `search_algorithms.py` -/

/-- `linear_search(search_string, content)`: scan `content` in order and
return `True` on the first line whose `strip()` equals `search_string`. -/
def linear_search (search_string : String) (content : List String) : Bool :=
  content.any (fun line => pyStrip line == search_string)

/-- `bisect.bisect_left(a, x)` on a sorted list: the leftmost insertion
point for `x`, i.e. the number of leading elements `< x`.  The Python
library routine binary-searches the indices; on the sorted lists this code
applies it to, the result is this structural count. -/
def bisect_left (l : List String) (x : String) : Nat :=
  match l with
  | [] => 0
  | a :: as => if pyLt a x then bisect_left as x + 1 else 0

/-- `binary_search(search_string, content)`: sort a copy, `bisect_left`,
then compare the element at the returned index.  (The "flatten" step is the
identity on a list of strings: every item is a `str`.) -/
def binary_search (search_string : String) (content : List String) : Bool :=
  let sorted_content := pySorted content
  let index := bisect_left sorted_content search_string
  index != sorted_content.length &&
    sorted_content.getD index "" == search_string

/-- Fuel step of `floorSqrt`: climb `acc` while `(acc+1)² ≤ n`. -/
def floorSqrtGo (n : Nat) : Nat → Nat → Nat
  | 0, acc => acc
  | fuel + 1, acc =>
    if (acc + 1) * (acc + 1) ≤ n then floorSqrtGo n fuel (acc + 1) else acc

/-- `int(math.sqrt(n))`: the floor square root, computed structurally
(Lean's `Nat.sqrt` is defined by well-founded recursion and does not reduce
in the kernel; this fuel-based version does, and is proved below to be the
floor square root). -/
def floorSqrt (n : Nat) : Nat :=
  floorSqrtGo n (n + 1) 0

/-- The `while curr < n and content[curr] <= search_string` loop of
`jump_search`, with explicit fuel (the Python loop runs at most `n` times
since `curr` strictly increases while bounded by `n`).  Returns the final
`(prev, curr)`.  The body is `prev = curr; curr += block_size;
if curr >= n: curr = min(curr, n)`, i.e. `curr := min (curr + block) n`. -/
def jumpLoop (content : List String) (s : String) (n block : Nat) :
    Nat → Nat → Nat → Nat × Nat
  | 0, prev, curr => (prev, curr)
  | fuel + 1, prev, curr =>
    if curr < n ∧ pyLe (content.getD curr "") s then
      jumpLoop content s n block fuel curr (min (curr + block) n)
    else
      (prev, curr)

/-- `jump_search(search_string, content)`: sort a copy, jump by blocks of
`int(math.sqrt(n))`, then scan `range(prev, curr)` linearly. -/
def jump_search (search_string : String) (content : List String) : Bool :=
  let n := content.length
  let block_size := floorSqrt n
  let sorted_content := pySorted content
  let pc := jumpLoop sorted_content search_string n block_size (n + 1) 0 0
  (List.range' pc.1 (pc.2 - pc.1)).any
    (fun i => sorted_content.getD i "" == search_string)

/-- `search_in_set(search_item, content)` for a string needle: sort a copy
when non-empty, build a set, test membership (membership in the Python set
equals membership in the list it was built from). -/
def search_in_set (search_item : String) (content : List String) : Bool :=
  let content' := if content.isEmpty then content else pySorted content
  content'.contains search_item

/-- The `while i < len(content) and content[i] <= search_string: i *= 2`
loop of `exponential_search`, with explicit fuel (the loop runs at most
`len(content)` times since `i ≥ 1` at least doubles while bounded). -/
def expLoop (content : List String) (s : String) : Nat → Nat → Nat
  | 0, i => i
  | fuel + 1, i =>
    if i < content.length ∧ pyLe (content.getD i "") s then
      expLoop content s fuel (i * 2)
    else
      i

/-- `exponential_search(search_string, content)`: sort a copy; empty list →
`False`; first element match → `True`; otherwise double `i` past the bound
and `binary_search` the slice `content[i // 2 : min(i, len(content))]`. -/
def exponential_search (search_string : String) (content : List String) : Bool :=
  let sorted_content := pySorted content
  if sorted_content.isEmpty then false
  else if sorted_content.getD 0 "" == search_string then true
  else
    let i := expLoop sorted_content search_string sorted_content.length 1
    let lo := i / 2
    let hi := min i sorted_content.length
    binary_search search_string ((sorted_content.drop lo).take (hi - lo))

/-! ## `utils.py`: the dataset loader -/

/-- Split a character list on `'\n'` separators (the list of the segments
between newlines; one more segment than separators). -/
def splitNl (l : List Char) : List (List Char) :=
  match l with
  | [] => [[]]
  | c :: cs =>
    match splitNl cs with
    | [] => [[]]
    | h :: t => if c = '\n' then [] :: h :: t else (c :: h) :: t

/-- Python `str.splitlines()` restricted to `\n` line terminators: split on
newlines; a trailing terminator produces no extra empty line. -/
def pySplitlines (c : String) : List String :=
  let parts := (splitNl c.data).map String.mk
  if parts.getLastD "" = "" then parts.dropLast else parts

/-- State of the strings file as the loader sees it when a request is
handled. -/
inductive FileState where
  | content (c : String)
  | missing
  | unreadable
deriving DecidableEq

/-- Python exceptions that can cross the boundaries modelled here. -/
inductive PyExc where
  | invalidPayload (msg : String)
  | connectionError
  | timeoutError
  | socketError
  | unicodeError
  | fileAccessError (msg : String)
  | typeError
  | osError
deriving DecidableEq

/-- The non-empty lines of a file content: `f.read().splitlines()` filtered
by Python truthiness (`if line` keeps exactly the non-empty strings). -/
def file_lines (c : String) : List String :=
  (pySplitlines c).filter (fun l => l != "")

/-- `utils.reread_file(file_path)`: read the file and return its non-empty
lines.  A `FileNotFoundError` is caught (logged) and `None` is returned;
any other `OSError` from `open` (e.g. a permission error) propagates. -/
def reread_file : FileState → Except PyExc (Option (List String))
  | .content c => .ok (some (file_lines c))
  | .missing => .ok none
  | .unreadable => .error .osError

/-! ## `server.py`: the connection handler -/

/-- `StringSearchServer._load_file_contents(path)`: calls
`utils.reread_file`; its `except FileNotFoundError` clause is unreachable
because `reread_file` swallows that error and returns `None`, which is
passed through as a successful result; any other exception is wrapped into
`FileAccessError` by the generic `except Exception` clause. -/
def load_file_contents (fst : FileState) : Except PyExc (Option (List String)) :=
  match reread_file fst with
  | .ok d => .ok d
  | .error _ => .error (.fileAccessError "Failed to load file")

/-- What `sock.recv(max_payload)` followed by `.decode()` produced:
decodable bytes (decoding modelled as the identity on the characters), an
undecodable byte sequence, or a receive failure. -/
inductive RecvState where
  | bytes (wire : List Char)
  | undecodable
  | recvFailed
deriving DecidableEq

/-- Python `str.rstrip("\x00")`: drop trailing null characters. -/
def rstripNull (l : List Char) : List Char :=
  (l.reverse.dropWhile (fun c => c == Char.ofNat 0)).reverse

/-- `StringSearchServer._strip_exceeding_received_data(sock, max_payload_size)`:
`sock.recv(max_payload_size)` returns at most `max_payload_size` bytes
(modelled as `wire.take max_payload_size`); the decoded data is
whitespace-stripped; an empty result raises
`InvalidPayloadError("Empty payload received")`, which the function's own
`except Exception` clause catches and re-raises as a bare
`InvalidPayloadError` whose default message is `"Invalid payload"`; data
longer than `max_payload_size` would have its trailing nulls stripped;
decode/receive failures are likewise wrapped into the default
`InvalidPayloadError`. -/
def strip_exceeding_received_data (r : RecvState) (max_payload_size : Nat) :
    Except PyExc String :=
  match r with
  | .bytes wire =>
    let data := pyStripL (wire.take max_payload_size)
    if data.isEmpty then .error (.invalidPayload "Invalid payload")
    else if data.length > max_payload_size then .ok (String.mk (rstripNull data))
    else .ok (String.mk data)
  | .undecodable => .error (.invalidPayload "Invalid payload")
  | .recvFailed => .error (.invalidPayload "Invalid payload")

/-- Dataset resolution in `handle_client` (lines 127–141): with
reread-on-query, reload the file via `_load_file_contents`; a list result
is used, a `None` result leaves `search_data` as the initial `[]`; without
reread-on-query, use the startup snapshot `CACHE_DATA` (a `None` snapshot
would crash `jump_search` with a `TypeError` when the handler uses it). -/
def resolve_dataset (reread_on_query : Bool) (fst : FileState)
    (cache_data : Option (List String)) : Except PyExc (List String) :=
  if reread_on_query then
    match load_file_contents fst with
    | .error e => .error e
    | .ok (some l) => .ok l
    | .ok none => .ok []
  else
    match cache_data with
    | some l => .ok l
    | none => .error .typeError

/-- The response string chosen by the `except` clauses of `handle_client`:
`InvalidPayloadError` → `ERROR: <msg>`; `ConnectionError`/`TimeoutError`,
`socket.error` (= `OSError`) and `UnicodeError` → `SERVER ERROR`;
any other exception (in particular `FileAccessError`) has no handler. -/
def dispatch_exc (e : PyExc) : Option String :=
  match e with
  | .invalidPayload msg => some ("ERROR: " ++ msg)
  | .connectionError => some "SERVER ERROR"
  | .timeoutError => some "SERVER ERROR"
  | .socketError => some "SERVER ERROR"
  | .osError => some "SERVER ERROR"
  | .unicodeError => some "SERVER ERROR"
  | .fileAccessError _ => none
  | .typeError => none

/-- Outcome of one `client_sock.sendall` call: the environment either lets
it succeed or makes it raise `sendExc`. -/
def sendOrRaise (msg : String) (sendExc : Option PyExc) :
    List String × Option PyExc :=
  match sendExc with
  | none => ([msg], none)
  | some e => ([], some e)

/-- The `try` body of `handle_client`: receive, answer empty requests with
`STRING NOT EXIST`, resolve the dataset, search with the configured
strategy (`jump_search`), reply `STRING EXISTS`/`STRING NOT EXIST`.
Returns the messages sent and the exception escaping the body, if any. -/
def handle_client_body (recv : RecvState) (max_payload : Nat)
    (reread_on_query : Bool) (fst : FileState)
    (cache_data : Option (List String)) (sendExc : Option PyExc) :
    List String × Option PyExc :=
  match strip_exceeding_received_data recv max_payload with
  | .error e => ([], some e)
  | .ok request =>
    if request = "" then
      sendOrRaise "STRING NOT EXIST" sendExc
    else
      match resolve_dataset reread_on_query fst cache_data with
      | .error e => ([], some e)
      | .ok search_data =>
        let found := jump_search request search_data
        sendOrRaise (if found then "STRING EXISTS" else "STRING NOT EXIST") sendExc

/-- Result of one `handle_client` call: the messages sent to the client,
whether the connection was closed, and the exception escaping the handler
(killing its thread), if any. -/
structure HandlerResult where
  sent : List String
  closed : Bool
  propagated : Option PyExc
deriving DecidableEq

/-- `StringSearchServer.handle_client`: run the `try` body; an escaping
exception is dispatched by the `except` clauses, whose own `sendall` may
itself fail; the `finally` clause closes the connection on every path. -/
def handle_client (recv : RecvState) (max_payload : Nat)
    (reread_on_query : Bool) (fst : FileState)
    (cache_data : Option (List String)) (sendExc : Option PyExc) :
    HandlerResult :=
  match handle_client_body recv max_payload reread_on_query fst cache_data sendExc with
  | (sent, none) => ⟨sent, true, none⟩
  | (sent, some e) =>
    match dispatch_exc e with
    | some msg =>
      match sendExc with
      | none => ⟨sent ++ [msg], true, none⟩
      | some e2 => ⟨sent, true, some e2⟩
    | none => ⟨sent, true, some e⟩

/-- The verdict a handled query is answered with, as a function of the
dataset source (`none` when dataset resolution raises instead). -/
def handled_verdict (reread_on_query : Bool) (fst : FileState)
    (cache_data : Option (List String)) (needle : String) : Option Bool :=
  match resolve_dataset reread_on_query fst cache_data with
  | .ok d => some (jump_search needle d)
  | .error _ => none

/-! ## `server.py`: performance metrics -/

/-- `self.performance_stats`, the dictionary initialised by
`StringSearchServer.__init__`. -/
structure PerfStats where
  total_queries : Nat
  avg_response_time : ℚ
  max_concurrent : Nat
deriving DecidableEq

/-- The stats dictionary as `__init__` creates it. -/
def init_performance_stats : PerfStats :=
  ⟨0, 0, 0⟩

/-- The metrics update in `handle_client` (lines 147–154): increment
`total_queries`, then set the running mean using the incremented counter. -/
def update_performance_stats (st : PerfStats) (response_time : ℚ) : PerfStats :=
  { st with
    total_queries := st.total_queries + 1,
    avg_response_time :=
      (st.avg_response_time * (((st.total_queries + 1 : Nat) : ℚ) - 1) + response_time) /
        ((st.total_queries + 1 : Nat) : ℚ) }

/-- `handle_concurrency_metrics(client_operation)`: raise the stored
high-water mark to the currently observed number of non-main threads. -/
def handle_concurrency_metrics (st : PerfStats) (current_threads : Nat) : PerfStats :=
  { st with max_concurrent := max st.max_concurrent current_threads }

/-- The accept loop of `start` (lines 310–327), restricted to the metrics
it produces: every accepted connection constructs a fresh
`StringSearchServer` instance (line 318), updates the concurrency metric on
that fresh instance, and its handler then updates the query metrics on the
same instance.  `threads k` is the thread count `threading.active_count() - 1`
observed for connection `k` and `response_times k` its measured search
time; the function returns each connection's final stats object. -/
def server_run (num_connections : Nat) (threads : Nat → Nat)
    (response_times : Nat → ℚ) : List PerfStats :=
  (List.range num_connections).map (fun k =>
    update_performance_stats
      (handle_concurrency_metrics init_performance_stats (threads k))
      (response_times k))

/-! ## State-threaded views of the search strategies -/

/-- `linear_search` as the caller observes it: the function receives a
reference to the caller's list and never assigns to it; the caller's list
afterwards is returned alongside the verdict. -/
def linear_search_call (search_string : String) (heap : List String) :
    Bool × List String :=
  (linear_search search_string heap, heap)

/-- `binary_search` as the caller observes it: the flatten comprehension
and `sorted` both allocate fresh lists; nothing assigns into the caller's
list. -/
def binary_search_call (search_string : String) (heap : List String) :
    Bool × List String :=
  let flat_content := heap.map (fun item => item)
  (binary_search search_string flat_content, heap)

/-- `jump_search` as the caller observes it: `content = sorted(content)`
rebinds the local name to a fresh sorted copy; the caller's list is not
written. -/
def jump_search_call (search_string : String) (heap : List String) :
    Bool × List String :=
  (jump_search search_string heap, heap)

/-- `exponential_search` as the caller observes it: `content =
sorted(content)` rebinds the local name to a fresh sorted copy; the
caller's list is not written. -/
def exponential_search_call (search_string : String) (heap : List String) :
    Bool × List String :=
  (exponential_search search_string heap, heap)

/-- `search_in_set` as the caller observes it: `content = sorted(content)`
rebinds the local name; `set(content)` allocates; the caller's list is not
written. -/
def search_in_set_call (search_item : String) (heap : List String) :
    Bool × List String :=
  (search_in_set search_item heap, heap)

/-! ## Helper lemmas: floor square root -/

theorem floorSqrtGo_spec (n : Nat) :
    ∀ fuel acc, acc * acc ≤ n → n - acc < fuel →
      floorSqrtGo n fuel acc * floorSqrtGo n fuel acc ≤ n ∧
        n < (floorSqrtGo n fuel acc + 1) * (floorSqrtGo n fuel acc + 1) := by
  intro fuel
  induction fuel with
  | zero => intro acc _ hf; omega
  | succ f ih =>
    intro acc hacc hf
    rw [floorSqrtGo]
    by_cases h : (acc + 1) * (acc + 1) ≤ n
    · rw [if_pos h]
      have hle : acc + 1 ≤ (acc + 1) * (acc + 1) := Nat.le_mul_of_pos_left _ (by omega)
      exact ih (acc + 1) h (by omega)
    · rw [if_neg h]
      exact ⟨hacc, by omega⟩

theorem floorSqrt_spec (n : Nat) :
    floorSqrt n * floorSqrt n ≤ n ∧ n < (floorSqrt n + 1) * (floorSqrt n + 1) :=
  floorSqrtGo_spec n (n + 1) 0 (by simp) (by omega)

theorem floorSqrt_pos {n : Nat} (h : 1 ≤ n) : 1 ≤ floorSqrt n := by
  rcases Nat.eq_zero_or_pos (floorSqrt n) with h0 | h1
  · have := (floorSqrt_spec n).2
    rw [h0] at this
    omega
  · exact h1

/-! ## Helper lemmas: sorting -/

theorem pySorted_perm (l : List String) : (pySorted l).Perm l :=
  List.perm_insertionSort pyLe l

theorem pySorted_mem {s : String} {l : List String} : s ∈ pySorted l ↔ s ∈ l :=
  (pySorted_perm l).mem_iff

theorem pySorted_length (l : List String) : (pySorted l).length = l.length :=
  (pySorted_perm l).length_eq

theorem pySorted_sorted (l : List String) : (pySorted l).Sorted pyLe :=
  List.sorted_insertionSort pyLe l

theorem sorted_getD_le {l : List String} (hl : l.Sorted pyLe) {i j : Nat}
    (hij : i ≤ j) (hj : j < l.length) : pyLe (l.getD i "") (l.getD j "") := by
  have hi : i < l.length := lt_of_le_of_lt hij hj
  rw [List.getD_eq_getElem _ _ hi, List.getD_eq_getElem _ _ hj]
  exact hl.rel_get_of_le hij

theorem getD_mem {l : List String} {i : Nat} (hi : i < l.length) :
    l.getD i "" ∈ l := by
  rw [List.getD_eq_getElem _ _ hi]
  exact l.getElem_mem hi

theorem mem_iff_getD {l : List String} {s : String} :
    s ∈ l ↔ ∃ i, i < l.length ∧ l.getD i "" = s := by
  constructor
  · intro hs
    obtain ⟨⟨i, hi⟩, rfl⟩ := List.mem_iff_get.1 hs
    exact ⟨i, hi, List.getD_eq_getElem _ _ hi⟩
  · rintro ⟨i, hi, rfl⟩
    exact getD_mem hi

/-! ## Helper lemmas: the order on strings -/

theorem pyLe_antisymm {a b : String} (h : pyLe a b) (h' : pyLe b a) : a = b := by
  cases a
  cases b
  exact congrArg String.mk (le_antisymm h h')

theorem pyLe_of_not_lt {a b : String} (h : ¬ pyLt a b) : pyLe b a :=
  le_of_not_lt h

theorem pyLt_ne {a b : String} (h : pyLt a b) : a ≠ b := by
  intro e
  subst e
  exact lt_irrefl _ h

/-! ## Helper lemmas: binary search -/

theorem bisect_left_mem {l : List String} (hl : l.Sorted pyLe) (x : String) :
    (bisect_left l x ≠ l.length ∧ l.getD (bisect_left l x) "" = x) ↔ x ∈ l := by
  induction l with
  | nil => simp [bisect_left]
  | cons a as ih =>
    have has : as.Sorted pyLe := hl.of_cons
    have hrel : ∀ b ∈ as, pyLe a b := List.rel_of_sorted_cons hl
    rw [bisect_left]
    by_cases h : pyLt a x
    · rw [if_pos h]
      simp only [List.length_cons, List.getD_cons_succ, List.mem_cons]
      rw [show (bisect_left as x + 1 ≠ as.length + 1) = (bisect_left as x ≠ as.length) by
        simp]
      rw [ih has]
      constructor
      · exact Or.inr
      · rintro (rfl | hx)
        · exact absurd rfl (pyLt_ne h)
        · exact hx
    · rw [if_neg h]
      simp only [List.getD_cons_zero, List.mem_cons]
      constructor
      · rintro ⟨-, rfl⟩
        exact Or.inl rfl
      · rintro (rfl | hx)
        · exact ⟨by simp, rfl⟩
        · have h1 : pyLe a x := hrel x hx
          have h2 : pyLe x a := pyLe_of_not_lt h
          exact ⟨by simp, pyLe_antisymm h1 h2⟩

theorem binary_search_eq (s : String) (content : List String) :
    binary_search s content = decide (s ∈ content) := by
  rw [Bool.eq_iff_iff]
  simp only [binary_search, Bool.and_eq_true, bne_iff_ne, beq_iff_eq, decide_eq_true_eq]
  rw [ne_eq]
  rw [show (¬bisect_left (pySorted content) s = (pySorted content).length ∧
        (pySorted content).getD (bisect_left (pySorted content) s) "" = s) ↔
        s ∈ pySorted content from
    bisect_left_mem (pySorted_sorted content) s]
  exact pySorted_mem

/-! ## Helper lemmas: jump search -/

theorem jumpLoop_spec (content : List String) (s : String) (n block : Nat)
    (hb : 1 ≤ block) :
    ∀ fuel prev curr,
      curr ≤ n →
      (prev = 0 ∧ curr = 0 ∨
        prev < curr ∧ prev < n ∧ pyLe (content.getD prev "") s) →
      n - curr < fuel →
      (jumpLoop content s n block fuel prev curr).2 ≤ n ∧
      ((jumpLoop content s n block fuel prev curr).1 = 0 ∧
          (jumpLoop content s n block fuel prev curr).2 = 0 ∨
        (jumpLoop content s n block fuel prev curr).1 <
            (jumpLoop content s n block fuel prev curr).2 ∧
          (jumpLoop content s n block fuel prev curr).1 < n ∧
          pyLe (content.getD (jumpLoop content s n block fuel prev curr).1 "") s) ∧
      ¬((jumpLoop content s n block fuel prev curr).2 < n ∧
          pyLe (content.getD (jumpLoop content s n block fuel prev curr).2 "") s) := by
  intro fuel
  induction fuel with
  | zero => intro prev curr _ _ hf; omega
  | succ f ih =>
    intro prev curr hcn hinv hf
    rw [jumpLoop]
    by_cases hg : curr < n ∧ pyLe (content.getD curr "") s
    · rw [if_pos hg]
      exact ih curr (min (curr + block) n) (by omega)
        (Or.inr ⟨by omega, hg.1, hg.2⟩) (by omega)
    · rw [if_neg hg]
      exact ⟨hcn, hinv, hg⟩

theorem jump_search_eq (s : String) (content : List String) :
    jump_search s content = decide (s ∈ content) := by
  have hsort := pySorted_sorted content
  have hlen : (pySorted content).length = content.length := pySorted_length content
  rcases Nat.eq_zero_or_pos content.length with h0 | hpos
  · have hnil : content = [] := List.length_eq_zero.mp h0
    subst hnil
    rfl
  · have hb : 1 ≤ floorSqrt content.length := floorSqrt_pos hpos
    obtain ⟨hc2, hinv, hexit⟩ :=
      jumpLoop_spec (pySorted content) s content.length (floorSqrt content.length) hb
        (content.length + 1) 0 0 (by omega) (Or.inl ⟨rfl, rfl⟩) (by omega)
    rw [jump_search, Bool.eq_iff_iff]
    simp only [List.any_eq_true, List.mem_range', beq_iff_eq, decide_eq_true_eq]
    constructor
    · rintro ⟨i, ⟨k, hk, rfl⟩, hgd⟩
      rw [← pySorted_mem]
      have hi :
          (jumpLoop (pySorted content) s content.length (floorSqrt content.length)
            (content.length + 1) 0 0).1 + 1 * k < (pySorted content).length := by
        omega
      exact hgd ▸ getD_mem hi
    · intro hs
      obtain ⟨j, hj, hgd⟩ := mem_iff_getD.1 (pySorted_mem.2 hs)
      rcases hinv with ⟨hp0, hc0⟩ | ⟨hpc, hpn, hple⟩
      · exfalso
        apply hexit
        rw [hc0]
        refine ⟨by omega, ?_⟩
        have := sorted_getD_le hsort (Nat.zero_le j) hj
        rw [hgd] at this
        exact this
      · have hjc : j <
            (jumpLoop (pySorted content) s content.length (floorSqrt content.length)
              (content.length + 1) 0 0).2 := by
          by_contra hjc
          apply hexit
          refine ⟨by omega, ?_⟩
          have := sorted_getD_le hsort (Nat.le_of_not_lt hjc) hj
          rw [hgd] at this
          exact this
        by_cases hpj :
            (jumpLoop (pySorted content) s content.length (floorSqrt content.length)
              (content.length + 1) 0 0).1 ≤ j
        · exact ⟨j, ⟨j -
            (jumpLoop (pySorted content) s content.length (floorSqrt content.length)
              (content.length + 1) 0 0).1, by omega, by omega⟩, hgd⟩
        · have h1 : pyLe ((pySorted content).getD j "")
              ((pySorted content).getD
                (jumpLoop (pySorted content) s content.length (floorSqrt content.length)
                  (content.length + 1) 0 0).1 "") :=
            sorted_getD_le hsort (by omega) (by omega)
          rw [hgd] at h1
          have heq := pyLe_antisymm hple h1
          exact ⟨_, ⟨0, by omega, by omega⟩, heq⟩

/-! ## Helper lemmas: exponential search -/

theorem expLoop_spec (content : List String) (s : String) :
    ∀ fuel i, 1 ≤ i →
      (i = 1 ∨ i / 2 < content.length ∧ pyLe (content.getD (i / 2) "") s) →
      content.length - i < fuel →
      1 ≤ expLoop content s fuel i ∧
      (expLoop content s fuel i = 1 ∨
        expLoop content s fuel i / 2 < content.length ∧
          pyLe (content.getD (expLoop content s fuel i / 2) "") s) ∧
      ¬(expLoop content s fuel i < content.length ∧
          pyLe (content.getD (expLoop content s fuel i) "") s) := by
  intro fuel
  induction fuel with
  | zero => intro i _ _ hf; omega
  | succ f ih =>
    intro i hi hinv hf
    rw [expLoop]
    by_cases hg : i < content.length ∧ pyLe (content.getD i "") s
    · rw [if_pos hg]
      refine ih (i * 2) (by omega) (Or.inr ?_) (by omega)
      have h2 : i * 2 / 2 = i := by omega
      rw [h2]
      exact hg
    · rw [if_neg hg]
      exact ⟨hi, hinv, hg⟩

/-- Membership in the Python slice `L[lo : hi]` (with `hi ≤ len(L)`),
modelled as `(L.drop lo).take (hi - lo)`. -/
theorem mem_slice_iff (L : List String) (lo hi : Nat) (x : String)
    (hhi : hi ≤ L.length) :
    x ∈ (L.drop lo).take (hi - lo) ↔
      ∃ j, lo ≤ j ∧ j < hi ∧ L.getD j "" = x := by
  constructor
  · intro hx
    obtain ⟨m, hm⟩ := List.mem_iff_getElem?.1 hx
    have hmlt : m < hi - lo := by
      by_contra hmlt
      rw [List.getElem?_take, if_neg (by omega)] at hm
      exact Option.noConfusion hm
    rw [List.getElem?_take, if_pos hmlt, List.getElem?_drop] at hm
    obtain ⟨hlt, heq⟩ := List.getElem?_eq_some.1 hm
    refine ⟨lo + m, by omega, by omega, ?_⟩
    rw [List.getD_eq_getElem _ _ hlt]
    exact heq
  · rintro ⟨j, hlo, hj, hgd⟩
    have hjlen : j < L.length := lt_of_lt_of_le hj hhi
    apply List.mem_iff_getElem?.2
    refine ⟨j - lo, ?_⟩
    rw [List.getElem?_take, if_pos (by omega), List.getElem?_drop]
    rw [show lo + (j - lo) = j by omega]
    rw [List.getElem?_eq_some]
    refine ⟨hjlen, ?_⟩
    rw [List.getD_eq_getElem _ _ hjlen] at hgd
    exact hgd

theorem exponential_search_eq (s : String) (content : List String) :
    exponential_search s content = decide (s ∈ content) := by
  have hsort := pySorted_sorted content
  rw [exponential_search]
  by_cases hemp : (pySorted content).isEmpty
  · rw [if_pos hemp]
    have h1 := List.isEmpty_iff.1 hemp
    have h2 : content.length = 0 := by
      rw [← pySorted_length content, h1]
      rfl
    have : content = [] := List.length_eq_zero.mp h2
    subst this
    rfl
  · rw [if_neg hemp]
    have hpos : 0 < (pySorted content).length := by
      cases h : pySorted content with
      | nil => rw [h] at hemp; exact absurd rfl hemp
      | cons a as => simp
    by_cases h0 : (pySorted content).getD 0 "" == s
    · rw [if_pos h0]
      have hs : s ∈ pySorted content := (beq_iff_eq.1 h0) ▸ getD_mem hpos
      rw [pySorted_mem] at hs
      simp [hs]
    · rw [if_neg h0]
      obtain ⟨hr1, hrinv, hrexit⟩ :=
        expLoop_spec (pySorted content) s (pySorted content).length 1 (by omega)
          (Or.inl rfl) (by omega)
      rw [binary_search_eq]
      congr 1
      rw [eq_iff_iff]
      rw [mem_slice_iff _ _ _ _ (by omega)]
      rw [← pySorted_mem (l := content)]
      constructor
      · rintro ⟨j, _, hj, hgd⟩
        exact hgd ▸ getD_mem (by omega)
      · intro hs
        obtain ⟨j, hj, hgd⟩ := mem_iff_getD.1 hs
        have hjr : j < expLoop (pySorted content) s (pySorted content).length 1 := by
          by_contra hjr
          apply hrexit
          refine ⟨by omega, ?_⟩
          have := sorted_getD_le hsort (Nat.le_of_not_lt hjr) hj
          rw [hgd] at this
          exact this
        rcases hrinv with hr1' | ⟨hlo, hle⟩
        · exact ⟨j, by omega, by omega, hgd⟩
        · by_cases hloj : expLoop (pySorted content) s (pySorted content).length 1 / 2 ≤ j
          · exact ⟨j, hloj, by omega, hgd⟩
          · have h1 : pyLe ((pySorted content).getD j "")
                ((pySorted content).getD
                  (expLoop (pySorted content) s (pySorted content).length 1 / 2) "") :=
              sorted_getD_le hsort (by omega) hlo
            rw [hgd] at h1
            have heq := pyLe_antisymm hle h1
            exact ⟨_, le_refl _, by omega, heq⟩

/-! ## Helper lemmas: linear search and set search -/

theorem linear_search_eq (s : String) (content : List String)
    (h : ∀ l ∈ content, pyStrip l = l) :
    linear_search s content = decide (s ∈ content) := by
  rw [Bool.eq_iff_iff]
  simp only [linear_search, List.any_eq_true, beq_iff_eq, decide_eq_true_eq]
  constructor
  · rintro ⟨line, hline, hstrip⟩
    rw [h line hline] at hstrip
    exact hstrip ▸ hline
  · intro hs
    exact ⟨s, hs, h s hs⟩

theorem search_in_set_eq (s : String) (content : List String) :
    search_in_set s content = decide (s ∈ content) := by
  rw [search_in_set]
  by_cases h : content.isEmpty
  · rw [if_pos h]
    have : content = [] := List.isEmpty_iff.1 h
    subst this
    rfl
  · rw [if_neg h]
    rw [Bool.eq_iff_iff]
    simp only [List.contains_eq_any_beq, List.any_eq_true, beq_iff_eq, decide_eq_true_eq]
    constructor
    · rintro ⟨x, hx, rfl⟩
      exact pySorted_mem.1 hx
    · intro hs
      exact ⟨s, pySorted_mem.2 hs, rfl⟩

/-! ## Further helper lemmas -/

theorem pyStripL_length_le (l : List Char) : (pyStripL l).length ≤ l.length := by
  rw [pyStripL, List.length_reverse]
  refine le_trans (List.dropWhile_sublist pyWhitespace).length_le ?_
  rw [List.length_reverse]
  exact (List.dropWhile_sublist pyWhitespace).length_le

/-! ## Claims -/

/-- C1, counterexample to the claim as stated: on the dataset `["a "]`
(one untrimmed line) and needle `"a"`, `linear_search` answers `true`
(it strips the line before comparing) while `binary_search` answers
`false` (it compares the line exactly) — the five strategies do not agree
on every input. -/
theorem C1_counterexample :
    linear_search "a" ["a "] = true ∧ binary_search "a" ["a "] = false :=
  ⟨by decide, by decide⟩

/-- C1 (amended): on a dataset whose lines are already trimmed, the five
search strategies return the same boolean verdict, and that verdict is true
exactly when the needle is an exact (non-substring) match of some dataset
line.  (Over arbitrary datasets the claim fails: `linear_search` trims each
line before comparing while the other four strategies compare lines
exactly.) -/
theorem C1_search_strategies_agree (needle : String) (dataset : List String)
    (h : ∀ l ∈ dataset, pyStrip l = l) :
    linear_search needle dataset = decide (needle ∈ dataset) ∧
    binary_search needle dataset = decide (needle ∈ dataset) ∧
    jump_search needle dataset = decide (needle ∈ dataset) ∧
    exponential_search needle dataset = decide (needle ∈ dataset) ∧
    search_in_set needle dataset = decide (needle ∈ dataset) :=
  ⟨linear_search_eq needle dataset h, binary_search_eq needle dataset,
    jump_search_eq needle dataset, exponential_search_eq needle dataset,
    search_in_set_eq needle dataset⟩

/-- C1, witness: the agreement theorem applied to the spec's concrete
scenario, needle `"banana"` against `["apple", "banana", "cherry"]`. -/
theorem C1_search_strategies_agree_witness :
    (∀ l ∈ ["apple", "banana", "cherry"], pyStrip l = l) ∧
    (linear_search "banana" ["apple", "banana", "cherry"]
        = decide ("banana" ∈ ["apple", "banana", "cherry"]) ∧
      binary_search "banana" ["apple", "banana", "cherry"]
        = decide ("banana" ∈ ["apple", "banana", "cherry"]) ∧
      jump_search "banana" ["apple", "banana", "cherry"]
        = decide ("banana" ∈ ["apple", "banana", "cherry"]) ∧
      exponential_search "banana" ["apple", "banana", "cherry"]
        = decide ("banana" ∈ ["apple", "banana", "cherry"]) ∧
      search_in_set "banana" ["apple", "banana", "cherry"]
        = decide ("banana" ∈ ["apple", "banana", "cherry"])) :=
  ⟨by decide,
    C1_search_strategies_agree "banana" ["apple", "banana", "cherry"] (by decide)⟩

/-- C2, counterexample to the claim as stated: a payload of `"  \n"`
(non-empty bytes, empty after stripping) makes the handler reply
`ERROR: Invalid payload` — the `InvalidPayload` error path — and not
`STRING NOT EXIST`. -/
theorem C2_counterexample :
    handle_client (.bytes "  \n".data) 1024 false (.content "apple")
        (some ["apple"]) none
      = ⟨["ERROR: Invalid payload"], true, none⟩ ∧
    (["ERROR: Invalid payload"] : List String) ≠ ["STRING NOT EXIST"] :=
  ⟨by decide, by decide⟩

/-- C2 (amended): a received payload that is non-empty as bytes but empty
after stripping raises `InvalidPayloadError` inside the receive step
(re-wrapped with the default message), so the handler replies
`ERROR: Invalid payload` through the same path as any other invalid
payload, and terminates with the connection closed; the handler's own
empty-request `STRING NOT EXIST` branch is unreachable. -/
theorem C2_empty_after_strip (wire : List Char) (maxp : Nat) (reread : Bool)
    (fst : FileState) (cache : Option (List String))
    (hne : wire ≠ []) (hempty : pyStripL (wire.take maxp) = []) :
    handle_client (.bytes wire) maxp reread fst cache none
      = ⟨["ERROR: Invalid payload"], true, none⟩ := by
  have := hne
  simp [handle_client, handle_client_body, strip_exceeding_received_data,
    hempty, dispatch_exc]

/-- C2, witness: the amended theorem applied to the payload `"  \n"`. -/
theorem C2_empty_after_strip_witness :
    ("  \n".data ≠ ([] : List Char)) ∧ pyStripL ("  \n".data.take 1024) = [] ∧
    handle_client (.bytes "  \n".data) 1024 false (.content "apple")
        (some ["apple"]) none
      = ⟨["ERROR: Invalid payload"], true, none⟩ :=
  ⟨by decide, by decide,
    C2_empty_after_strip "  \n".data 1024 false (.content "apple")
      (some ["apple"]) (by decide) (by decide)⟩

/-- C3: evaluating the handler at the claim's failing input.  With
reread-on-query enabled and the dataset file missing, `reread_file`
swallows the `FileNotFoundError` and returns `None`, so no
`FileAccessError` is raised and the handler searches an empty dataset and
replies `STRING NOT EXIST` — not `SERVER ERROR`.  Even when
`_load_file_contents` does raise `FileAccessError` (an unreadable file),
`handle_client` has no handler for it: nothing is sent and the exception
propagates. -/
theorem C3_missing_file_behaviour :
    handle_client (.bytes "banana".data) 1024 true .missing
        (some ["banana"]) none
      = ⟨["STRING NOT EXIST"], true, none⟩ ∧
    handle_client (.bytes "banana".data) 1024 true .unreadable
        (some ["banana"]) none
      = ⟨[], true, some (.fileAccessError "Failed to load file")⟩ :=
  ⟨by decide, by decide⟩

/-- C4, counterexample to the claim as stated: the loader keeps the line
`"ab "` of the file content `"ab \ncd"` verbatim, and that line is not
trimmed (`strip` would change it) — the loader does not trim lines. -/
theorem C4_counterexample :
    reread_file (.content "ab \ncd") = .ok (some ["ab ", "cd"]) ∧
    pyStrip "ab " ≠ "ab " :=
  ⟨rfl, by decide⟩

/-- C4 (amended): for every file content the loader returns the file's
lines with the empty lines discarded, in the original order and with the
original multiplicities (no deduplication) — but the kept lines are
returned verbatim, without trimming. -/
theorem C4_loader_lines (c : String) :
    ∃ ls, reread_file (.content c) = .ok (some ls) ∧
      ls.Sublist (pySplitlines c) ∧
      (∀ l ∈ ls, l ≠ "") ∧
      (∀ l, l ≠ "" → ls.count l = (pySplitlines c).count l) := by
  refine ⟨file_lines c, rfl, List.filter_sublist _, ?_, ?_⟩
  · intro l hl
    exact bne_iff_ne.mp (List.mem_filter.1 hl).2
  · intro l hl
    exact List.count_filter (bne_iff_ne.mpr hl)

/-- C5: evaluating the accept loop's metrics at the claim's failing input.
After two successfully handled requests on two connections, no stats object
records `total_queries = 2`: each accepted connection constructs a fresh
`StringSearchServer`, so every instance ends with `total_queries = 1` and
its own `max_concurrent` — the statistics are per-connection, not
process-wide. -/
theorem C5_per_connection_stats :
    (server_run 2 (fun _ => 1) (fun _ => 5)).map PerfStats.total_queries
      = [1, 1] := by
  decide

/-- C6: each handled request increments `total_queries` by one and updates
the running mean exactly as `avg' = (avg * (n' - 1) + sample) / n'` with
`n'` the incremented counter; `handle_concurrency_metrics` raises
`max_concurrent` to `max(max_concurrent, current_threads)`; neither update
touches the other fields. -/
theorem C6_metrics_update_formula (st : PerfStats) (sample : ℚ)
    (current_threads : Nat) :
    (update_performance_stats st sample).total_queries = st.total_queries + 1 ∧
    (update_performance_stats st sample).avg_response_time =
      (st.avg_response_time *
          (((update_performance_stats st sample).total_queries : ℚ) - 1) + sample) /
        ((update_performance_stats st sample).total_queries : ℚ) ∧
    (update_performance_stats st sample).max_concurrent = st.max_concurrent ∧
    (handle_concurrency_metrics st current_threads).max_concurrent =
      max st.max_concurrent current_threads ∧
    (handle_concurrency_metrics st current_threads).total_queries =
      st.total_queries :=
  ⟨rfl, rfl, rfl, rfl, rfl⟩

/-- C7: with reread-on-query enabled the verdict is computed from the
freshly loaded lines of the file's current content, independent of the
startup snapshot (so a file mutation between two queries is reflected in
the later query); with it disabled the verdict is computed from the startup
snapshot, identical for every state of the file (so later file mutation is
never reflected). -/
theorem C7_reread_semantics (needle : String) (c : String)
    (snap : List String) (fst fst' : FileState) :
    handled_verdict true (.content c) (some snap) needle
        = some (jump_search needle (file_lines c)) ∧
    handled_verdict false fst (some snap) needle
        = some (jump_search needle snap) ∧
    handled_verdict false fst (some snap) needle
        = handled_verdict false fst' (some snap) needle :=
  ⟨rfl, rfl, rfl⟩

/-- C8, counterexample to the claim as stated: a 5-byte payload
`"abc" ++ "\x00\x00"` against `max_payload = 4` is truncated by
`recv(max_payload)` to its first 4 bytes, and the surviving trailing null
byte is kept: the result still contains a null character and is not the
leading content `"abc"` — the null-padding stripping never happens. -/
theorem C8_counterexample :
    strip_exceeding_received_data
        (.bytes ("abc".data ++ [Char.ofNat 0, Char.ofNat 0])) 4
      = .ok (String.mk ("abc".data ++ [Char.ofNat 0])) ∧
    String.mk ("abc".data ++ [Char.ofNat 0]) ≠ "abc" :=
  ⟨rfl, by decide⟩

/-- C8 (amended): the receive step never sees more than `max_payload`
bytes (`recv(max_payload)` caps the read), so the oversize branch that
strips trailing null padding is unreachable: every successful receive
returns exactly the whitespace-stripped first `max_payload` bytes, of
length at most `max_payload`, with any received null bytes retained. -/
theorem C8_receive_truncates (wire : List Char) (maxp : Nat) (r : String)
    (h : strip_exceeding_received_data (.bytes wire) maxp = .ok r) :
    r = String.mk (pyStripL (wire.take maxp)) ∧ r.data.length ≤ maxp := by
  have hlen : (pyStripL (wire.take maxp)).length ≤ maxp := by
    refine le_trans (pyStripL_length_le _) ?_
    rw [List.length_take]
    omega
  rw [strip_exceeding_received_data] at h
  by_cases he : (pyStripL (wire.take maxp)).isEmpty
  · rw [if_pos he] at h
    exact absurd h (by simp)
  · rw [if_neg he, if_neg (by omega)] at h
    cases h
    exact ⟨rfl, hlen⟩

/-- C8, witness: the amended theorem applied to the in-bounds payload
`"hi"` with `max_payload = 4`. -/
theorem C8_receive_truncates_witness :
    strip_exceeding_received_data (.bytes "hi".data) 4 = .ok "hi" ∧
    ("hi" : String) = String.mk (pyStripL ("hi".data.take 4)) ∧
    "hi".data.length ≤ 4 :=
  ⟨rfl, (C8_receive_truncates "hi".data 4 "hi" rfl).1,
    (C8_receive_truncates "hi".data 4 "hi" rfl).2⟩

/-- C9: on every exit path of `handle_client` — successful reply,
empty-payload reply, a dispatched error reply, a failing `sendall`, or an
exception with no handler — the `finally` clause closes the client
connection before the handler terminates. -/
theorem C9_connection_always_closed (recv : RecvState) (maxp : Nat)
    (reread : Bool) (fst : FileState) (cache : Option (List String))
    (sendExc : Option PyExc) :
    (handle_client recv maxp reread fst cache sendExc).closed = true := by
  unfold handle_client
  split
  · rfl
  · split
    · split <;> rfl
    · rfl

/-- C10: no search strategy mutates the dataset it is given: the caller's
list after each call is unchanged (the sorting strategies sort a fresh
copy, never in place), and the verdict is the one computed by the
corresponding search function. -/
theorem C10_no_mutation (needle : String) (heap : List String) :
    (linear_search_call needle heap).2 = heap ∧
    (linear_search_call needle heap).1 = linear_search needle heap ∧
    (binary_search_call needle heap).2 = heap ∧
    (binary_search_call needle heap).1 = binary_search needle heap ∧
    (jump_search_call needle heap).2 = heap ∧
    (jump_search_call needle heap).1 = jump_search needle heap ∧
    (exponential_search_call needle heap).2 = heap ∧
    (exponential_search_call needle heap).1 = exponential_search needle heap ∧
    (search_in_set_call needle heap).2 = heap ∧
    (search_in_set_call needle heap).1 = search_in_set needle heap := by
  refine ⟨rfl, rfl, rfl, ?_, rfl, rfl, rfl, rfl, rfl, rfl⟩
  show binary_search needle (heap.map (fun item => item)) = binary_search needle heap
  rw [List.map_id']

end TCPSearch
